import Mathlib

/-!
Verification development for the Earth-Climate-Change dashboard (`app.py`).

The program loads a climate CSV with pandas, cleans it
(`load_and_preprocess_data`), filters it by year range and country
(`main`, lines 94-96), aggregates it four ways
(`plot_yearly_trend`, `plot_temperature_distribution`,
`plot_top_hottest_cities`, `plot_monthly_trend`), and exports the
filtered table back to CSV (`main`, lines 127-133).

Shallow embedding choices:
* a dataframe is a `List` of row structures;
* float64 values are modelled as `ℚ`;
* numeric text cells are parsed/printed by executable decimal
  functions modelling `astype(float)` / `to_csv` / `read_csv` cell
  conversion;
* pandas `groupby` sorts group keys ascending, modelled by
  `List.insertionSort` over deduplicated keys;
* `sort_values(ascending=False)` after a key-sorted `groupby` yields
  rows ordered by descending value with ties in ascending key order,
  modelled by sorting with the lexicographic relation `hotterRel`.
-/

/-- One decimal digit as a character (`0 ≤ d ≤ 9` expected). -/
def digitChar (d : ℕ) : Char := Char.ofNat (48 + d)

/-- Numeric value of a decimal digit character, `none` if not a digit. -/
def digitVal? (c : Char) : Option ℕ :=
  if 48 ≤ c.toNat ∧ c.toNat ≤ 57 then some (c.toNat - 48) else none

/-- Base-10 digits of a natural number, least significant first; `[]` for 0. -/
def natDigitsRev : ℕ → List ℕ
  | 0 => []
  | n + 1 => ((n + 1) % 10) :: natDigitsRev ((n + 1) / 10)
decreasing_by exact Nat.div_lt_self (Nat.succ_pos n) (by norm_num)

/-- Value of a little-endian digit list. -/
def digitsVal : List ℕ → ℕ :=
  List.foldr (fun d acc => d + 10 * acc) 0

/-- Decimal string (as characters) of a natural number. -/
def natToDigits (n : ℕ) : List Char :=
  if n = 0 then ['0'] else ((natDigitsRev n).reverse).map digitChar

/-- Exactly `k` base-10 digits of `r`, least significant first (zero padded). -/
def natDigitsRevPad : ℕ → ℕ → List ℕ
  | 0, _ => []
  | k + 1, r => (r % 10) :: natDigitsRevPad k (r / 10)

/-- `k` zero-padded decimal digit characters for the fractional part `r`. -/
def fracToDigits (k r : ℕ) : List Char :=
  ((natDigitsRevPad k r).reverse).map digitChar

/-- Accumulating decimal parse of a digit character list. -/
def parseNatAux : ℕ → List Char → Option ℕ
  | acc, [] => some acc
  | acc, c :: cs =>
    match digitVal? c with
    | some d => parseNatAux (10 * acc + d) cs
    | none => none

/-- Parse a nonempty all-digit character list as a natural number. -/
def parseNatDigits (l : List Char) : Option ℕ :=
  match l with
  | [] => none
  | _ :: _ => parseNatAux 0 l

/-- Split a character list at the first `'.'`; second component is `none`
when there is no dot, `some rest` (dot removed) otherwise. -/
def splitAtDot : List Char → List Char × Option (List Char)
  | [] => ([], none)
  | c :: cs =>
    if c = '.' then ([], some cs)
    else
      let p := splitAtDot cs
      (c :: p.1, p.2)

/-- Parse an unsigned decimal numeral (`"34"` or `"34.5"`) as a rational. -/
def parseUnsigned (l : List Char) : Option ℚ :=
  match splitAtDot l with
  | (ip, none) =>
    match parseNatDigits ip with
    | some a => some (a : ℚ)
    | none => none
  | (ip, some fp) =>
    match parseNatDigits ip, parseNatDigits fp with
    | some a, some b => some ((a : ℚ) + (b : ℚ) / (10 : ℚ) ^ fp.length)
    | _, _ => none

/-- Parse a signed decimal numeral as a rational (models float conversion
of a decimal text cell, as in numpy `astype(float)` / `read_csv`). -/
def parseDecimalChars : List Char → Option ℚ
  | [] => none
  | c :: cs =>
    if c = '-' then Option.map (fun q => -q) (parseUnsigned cs)
    else parseUnsigned (c :: cs)

/-- String wrapper around `parseDecimalChars`. -/
def parseDecimal (s : String) : Option ℚ :=
  parseDecimalChars s.data

/-- Unsigned fixed-point decimal text of `m / 10^k`. -/
def printBody (k m : ℕ) : List Char :=
  if k = 0 then natToDigits m
  else natToDigits (m / 10 ^ k) ++ '.' :: fracToDigits k (m % 10 ^ k)

/-- Print `q` in fixed-point decimal with `k` fractional digits; exact
when `q * 10^k` is an integer (models the exact decimal text that
`to_csv` writes for a float value). -/
def printFixed (k : ℕ) (q : ℚ) : List Char :=
  if (q * (10 : ℚ) ^ k).num < 0 then '-' :: printBody k (q * (10 : ℚ) ^ k).num.natAbs
  else printBody k (q * (10 : ℚ) ^ k).num.natAbs

/-- Decimal string of a natural number. -/
def natToString (n : ℕ) : String := String.mk (natToDigits n)

/-- A calendar date, as produced by `pd.to_datetime` on a date string. -/
structure Date where
  year : ℕ
  month : ℕ
  day : ℕ
deriving DecidableEq, Repr

/-- Split a character list on `'-'` separators. -/
def splitDashes : List Char → List (List Char)
  | [] => [[]]
  | c :: cs =>
    if c = '-' then [] :: splitDashes cs
    else
      match splitDashes cs with
      | [] => [[c]]
      | h :: t => (c :: h) :: t

/-- Parse a `"YYYY-MM-DD"` date string; models `pd.to_datetime`, which
raises on an unrecognizable date (month outside 1..12, etc.). -/
def parseDate (s : String) : Option Date :=
  match splitDashes s.data with
  | [ys, ms, ds] =>
    match parseNatDigits ys, parseNatDigits ms, parseNatDigits ds with
    | some y, some m, some d =>
      if 1 ≤ m ∧ m ≤ 12 ∧ 1 ≤ d ∧ d ≤ 31 then some ⟨y, m, d⟩ else none
    | _, _, _ => none
  | _ => none

/-- One row of the raw CSV as `pd.read_csv` produces it: `dt`,
`Latitude`, `Longitude`, `City`, `Country` are text columns, and
`AverageTemperature` is a float column where a missing cell is `none`
(NaN). -/
structure RawRow where
  dt : String
  averageTemperature : Option ℚ
  latitude : String
  longitude : String
  city : String
  country : String
deriving DecidableEq, Repr

/-- One row of the cleaned table after `load_and_preprocess_data`:
temperature present, `dt` parsed, `Year`/`Month` derived, coordinates
converted to float. -/
structure Row where
  dt : Date
  averageTemperature : ℚ
  latitude : ℚ
  longitude : ℚ
  city : String
  country : String
  year : ℕ
  month : ℕ
deriving DecidableEq, Repr

/-- Coordinate conversion of `load_and_preprocess_data` lines 22-23:
`df['Latitude'].str[:-1].astype(float)` — strip the final character
(the hemisphere letter) and parse the remainder as a float. -/
def parseCoord (s : String) : Option ℚ :=
  parseDecimalChars s.data.dropLast

/-- Convert one raw row that survived `dropna` into a cleaned row:
parse `dt`, derive `Year`/`Month`, convert coordinates. Any failure
aborts the whole load, as in pandas. -/
def convertRow (r : RawRow) : Option Row :=
  match r.averageTemperature with
  | none => none
  | some t =>
    match parseDate r.dt with
    | none => none
    | some d =>
      match parseCoord r.latitude, parseCoord r.longitude with
      | some la, some lo =>
        some ⟨d, t, la, lo, r.city, r.country, d.year, d.month⟩
      | _, _ => none

/-- Convert every raw row, failing the whole load if any row fails. -/
def convertRows : List RawRow → Option (List Row)
  | [] => some []
  | r :: rs =>
    match convertRow r, convertRows rs with
    | some x, some xs => some (x :: xs)
    | _, _ => none

/-- `load_and_preprocess_data` (app.py lines 7-25): drop every row whose
`AverageTemperature` is missing, then parse dates, derive `Year` and
`Month`, and convert coordinates. -/
def load_and_preprocess_data (raws : List RawRow) : Option (List Row) :=
  convertRows (raws.filter (fun r => r.averageTemperature.isSome))

/-- The filter of `main` (app.py lines 94-96): keep rows with
`lo ≤ Year ≤ hi`, then, when the selected country is not the `"All"`
sentinel, keep rows of that country. -/
def filter_data (df : List Row) (lo hi : ℕ) (country : String) : List Row :=
  let f := df.filter (fun r => decide (lo ≤ r.year) && decide (r.year ≤ hi))
  if country = "All" then f else f.filter (fun r => decide (r.country = country))

/-- Rows of a given year. -/
def rowsOfYear (df : List Row) (y : ℕ) : List Row :=
  df.filter (fun r => decide (r.year = y))

/-- Mean `AverageTemperature` of the rows of year `y`. -/
def yearMean (df : List Row) (y : ℕ) : ℚ :=
  ((rowsOfYear df y).map (fun r => r.averageTemperature)).sum / ((rowsOfYear df y).length : ℚ)

/-- `df.groupby('Year')['AverageTemperature'].mean()` of
`plot_yearly_trend` (app.py line 29): group keys sorted ascending,
mean per group. -/
def yearly_avg_temp (df : List Row) : List (ℕ × ℚ) :=
  (((df.map (fun r => r.year)).dedup).insertionSort (fun a b => a ≤ b)).map
    (fun y => (y, yearMean df y))

/-- Rows of a given month. -/
def rowsOfMonth (df : List Row) (m : ℕ) : List Row :=
  df.filter (fun r => decide (r.month = m))

/-- Mean `AverageTemperature` of the rows of month `m`. -/
def monthMean (df : List Row) (m : ℕ) : ℚ :=
  ((rowsOfMonth df m).map (fun r => r.averageTemperature)).sum / ((rowsOfMonth df m).length : ℚ)

/-- `df.groupby('Month')['AverageTemperature'].mean()` of
`plot_monthly_trend` (app.py line 59). -/
def monthly_avg_temp (df : List Row) : List (ℕ × ℚ) :=
  (((df.map (fun r => r.month)).dedup).insertionSort (fun a b => a ≤ b)).map
    (fun m => (m, monthMean df m))

/-- Rows of a given city. -/
def rowsOfCity (df : List Row) (c : String) : List Row :=
  df.filter (fun r => decide (r.city = c))

/-- Mean `AverageTemperature` of the rows of city `c`. -/
def cityMean (df : List Row) (c : String) : ℚ :=
  ((rowsOfCity df c).map (fun r => r.averageTemperature)).sum / ((rowsOfCity df c).length : ℚ)

/-- Per-city means with city keys sorted ascending, as
`df.groupby('City')['AverageTemperature'].mean()` yields them. -/
def cityMeans (df : List Row) : List (String × ℚ) :=
  (((df.map (fun r => r.city)).dedup).insertionSort (fun a b => a ≤ b)).map
    (fun c => (c, cityMean df c))

/-- Order of `sort_values(ascending=False)` applied to the key-sorted
groupby output: descending by mean value, ties in ascending (lexical)
city order — the order a stable descending value sort produces on a
key-sorted series. -/
def hotterRel (a b : String × ℚ) : Prop :=
  b.2 < a.2 ∨ (a.2 = b.2 ∧ a.1 ≤ b.1)

instance : DecidableRel hotterRel := fun a b => by
  unfold hotterRel; infer_instance

instance : IsTotal (String × ℚ) hotterRel where
  total a b := by
    unfold hotterRel
    rcases lt_trichotomy a.2 b.2 with h | h | h
    · exact Or.inr (Or.inl h)
    · rcases le_total a.1 b.1 with h1 | h1
      · exact Or.inl (Or.inr ⟨h, h1⟩)
      · exact Or.inr (Or.inr ⟨h.symm, h1⟩)
    · exact Or.inl (Or.inl h)

instance : IsTrans (String × ℚ) hotterRel where
  trans a b c hab hbc := by
    unfold hotterRel at *
    rcases hab with h1 | ⟨h1, h1'⟩
    · rcases hbc with h2 | ⟨h2, _⟩
      · exact Or.inl (h2.trans h1)
      · exact Or.inl (lt_of_eq_of_lt h2.symm h1)
    · rcases hbc with h2 | ⟨h2, h2'⟩
      · exact Or.inl (lt_of_lt_of_eq h2 h1.symm)
      · exact Or.inr ⟨h1.trans h2, h1'.trans h2'⟩

/-- `city_avg_temp` of `plot_top_hottest_cities` (app.py line 48):
per-city means, sorted descending by mean (ties lexical), first 10. -/
def city_avg_temp (df : List Row) : List (String × ℚ) :=
  ((cityMeans df).insertionSort hotterRel).take 10

/-- Minimum of a nonempty temperature list. -/
def listMin (t : ℚ) (ts : List ℚ) : ℚ := ts.foldl min t

/-- Maximum of a nonempty temperature list. -/
def listMax (t : ℚ) (ts : List ℚ) : ℚ := ts.foldl max t

/-- The temperature column of a table. -/
def tempsOf (df : List Row) : List ℚ :=
  df.map (fun r => r.averageTemperature)

/-- Modelled from the spec: the histogram binning of
`plot_temperature_distribution` (app.py line 41) is performed inside
`sns.histplot(..., bins=50)`, whose computation is not part of this
repository's source. Following §4.4 of the spec: partition
`[min, max]` of the filtered data into 50 equal-width buckets and
count rows per bucket (last bucket right-closed); an empty table or a
degenerate range `min = max` yields a single bucket holding every
(possibly zero) row instead of dividing by zero. -/
def temperature_distribution (df : List Row) : List ((ℚ × ℚ) × ℕ) :=
  match tempsOf df with
  | [] => [((0, 0), 0)]
  | t :: ts =>
    let lo := listMin t ts
    let hi := listMax t ts
    if lo = hi then
      [((lo, hi), df.countP (fun r => decide (lo ≤ r.averageTemperature ∧ r.averageTemperature ≤ hi)))]
    else
      let w : ℚ := (hi - lo) / 50
      (List.range 50).map (fun (i : ℕ) =>
        ((lo + (i : ℚ) * w, lo + ((i : ℚ) + 1) * w),
         df.countP (fun r =>
           decide (lo + (i : ℚ) * w ≤ r.averageTemperature ∧
             (if i = 49 then r.averageTemperature ≤ lo + ((i : ℚ) + 1) * w
              else r.averageTemperature < lo + ((i : ℚ) + 1) * w)))))

/-- Header record written by `filtered_df.to_csv(index=False)`:
the cleaned table's column set, derived `Year`/`Month` included. -/
def csvHeader : List String :=
  ["dt", "AverageTemperature", "Latitude", "Longitude", "City", "Country", "Year", "Month"]

/-- `YYYY-MM-DD` text of a date, as `to_csv` writes a datetime column. -/
def dateToString (d : Date) : String :=
  natToString d.year ++ "-" ++ String.mk (fracToDigits 2 d.month) ++ "-" ++
    String.mk (fracToDigits 2 d.day)

/-- One CSV record of a cleaned-table row, float cells printed with `k`
fractional decimal digits. -/
def recordOfRow (k : ℕ) (r : Row) : List String :=
  [dateToString r.dt, String.mk (printFixed k r.averageTemperature),
   String.mk (printFixed k r.latitude), String.mk (printFixed k r.longitude),
   r.city, r.country, natToString r.year, natToString r.month]

/-- `filtered_df.to_csv(index=False)` (app.py line 127) at record level:
header record followed by one record per row. -/
def csvExport (k : ℕ) (df : List Row) : List (List String) :=
  csvHeader :: df.map (recordOfRow k)

/-- A row as re-loading the exported CSV with `pd.read_csv` (and no
re-cleaning) produces it: `dt`, `City`, `Country` stay text, the float
columns are parsed to floats, `Year`/`Month` to integers. -/
structure ImportedRow where
  dt : String
  averageTemperature : ℚ
  latitude : ℚ
  longitude : ℚ
  city : String
  country : String
  year : ℕ
  month : ℕ
deriving DecidableEq, Repr

/-- Parse one data record of the exported CSV. -/
def parseRecord : List String → Option ImportedRow
  | [d, t, la, lo, ci, co, y, m] =>
    match parseDecimal t, parseDecimal la, parseDecimal lo,
        parseNatDigits y.data, parseNatDigits m.data with
    | some t', some la', some lo', some y', some m' =>
      some ⟨d, t', la', lo', ci, co, y', m'⟩
    | _, _, _, _, _ => none
  | _ => none

/-- Parse every data record, failing on any malformed record. -/
def parseRecords : List (List String) → Option (List ImportedRow)
  | [] => some []
  | rec :: rest =>
    match parseRecord rec, parseRecords rest with
    | some r, some rs => some (r :: rs)
    | _, _ => none

/-- Re-load the exported CSV: check the header, parse the records. -/
def csvImport (records : List (List String)) : Option (List ImportedRow) :=
  match records with
  | [] => none
  | header :: data => if header = csvHeader then parseRecords data else none

/-- The imported image of a cleaned-table row. -/
def toImported (r : Row) : ImportedRow :=
  ⟨dateToString r.dt, r.averageTemperature, r.latitude, r.longitude,
   r.city, r.country, r.year, r.month⟩

/-- A cleaned-table row on day 15 of the given year/month with fixed
coordinates, used for concrete test tables. -/
def mkRow (y mo : ℕ) (city country : String) (t : ℚ) : Row :=
  ⟨⟨y, mo, 15⟩, t, 69 / 2, 123 / 10, city, country, y, mo⟩

/-- A raw table of three rows whose middle row has a missing
`AverageTemperature`. -/
def sampleRaws : List RawRow :=
  [⟨"2000-05-15", some 10, "34.5N", "12.3W", "A", "X"⟩,
   ⟨"2001-06-15", none, "34.5N", "12.3W", "B", "X"⟩,
   ⟨"2002-07-15", some 20, "34.5N", "12.3W", "C", "X"⟩]

/-- The cleaned table `load_and_preprocess_data` produces from
`sampleRaws`. -/
def sampleCleaned : List Row :=
  [⟨⟨2000, 5, 15⟩, 10, 69 / 2, 123 / 10, "A", "X", 2000, 5⟩,
   ⟨⟨2002, 7, 15⟩, 20, 69 / 2, 123 / 10, "C", "X", 2002, 7⟩]

/-- A cleaned table containing only years 1999 and 2000. -/
def dfYears : List Row :=
  [mkRow 1999 5 "A" "X" 10, mkRow 2000 5 "B" "X" 20]

/-- Two rows of year 2000 with temperatures 10 and 20. -/
def yearlyExample : List Row :=
  [mkRow 2000 5 "A" "X" 10, mkRow 2000 6 "A" "X" 20]

/-- Cities A (mean 30), B (mean 25), C (mean 30). -/
def cityExample : List Row :=
  [mkRow 2000 5 "A" "X" 30, mkRow 2000 5 "B" "X" 25, mkRow 2000 5 "C" "X" 30]

/-- A single-row table: the degenerate `min = max` histogram case. -/
def constExample : List Row := [mkRow 2000 5 "A" "X" 5]

/-- A two-row table with distinct temperatures 0 and 50. -/
def spreadExample : List Row :=
  [mkRow 2000 5 "A" "X" 0, mkRow 2000 6 "A" "X" 50]

/-- A one-row filtered table for the CSV round-trip test. -/
def roundTripExample : List Row := [mkRow 2000 5 "A" "X" 10]

/-! ## Digit machinery -/

theorem digitVal_digitChar : ∀ d < 10, digitVal? (digitChar d) = some d := by decide

theorem digitChar_ne : ∀ d < 10, digitChar d ≠ '.' ∧ digitChar d ≠ '-' := by decide

theorem parseNatAux_map_digitChar (ds : List ℕ) (h : ∀ d ∈ ds, d < 10) :
    ∀ acc : ℕ, parseNatAux acc (ds.map digitChar) = some (ds.foldl (fun a d => 10 * a + d) acc) := by
  induction ds with
  | nil => intro acc; rfl
  | cons d ds ih =>
    intro acc
    have hd : d < 10 := h d (List.mem_cons_self d ds)
    simp only [List.map_cons, parseNatAux, digitVal_digitChar d hd, List.foldl_cons]
    exact ih (fun x hx => h x (List.mem_cons_of_mem _ hx)) _

theorem foldl_reverse_digits (rev : List ℕ) :
    ∀ acc : ℕ, (rev.reverse).foldl (fun a d => 10 * a + d) acc = acc * 10 ^ rev.length + digitsVal rev := by
  induction rev with
  | nil => intro acc; simp [digitsVal]
  | cons d rev ih =>
    intro acc
    simp only [List.reverse_cons, List.foldl_append, ih, List.foldl_cons, List.foldl_nil,
      digitsVal, List.foldr_cons, List.length_cons]
    have : digitsVal rev = List.foldr (fun d acc => d + 10 * acc) 0 rev := rfl
    rw [← this]
    ring

theorem digitsVal_natDigitsRev : ∀ n : ℕ, digitsVal (natDigitsRev n) = n := by
  intro n
  induction n using Nat.strong_induction_on with
  | _ n ih =>
    match n with
    | 0 => simp [natDigitsRev, digitsVal]
    | n + 1 =>
      rw [natDigitsRev]
      simp only [digitsVal, List.foldr_cons]
      have hrec := ih ((n + 1) / 10) (Nat.div_lt_self (Nat.succ_pos n) (by norm_num))
      have : List.foldr (fun d acc => d + 10 * acc) 0 (natDigitsRev ((n + 1) / 10)) = (n + 1) / 10 := hrec
      rw [this]
      omega

theorem natDigitsRev_lt : ∀ n : ℕ, ∀ d ∈ natDigitsRev n, d < 10 := by
  intro n
  induction n using Nat.strong_induction_on with
  | _ n ih =>
    match n with
    | 0 => simp [natDigitsRev]
    | n + 1 =>
      rw [natDigitsRev]
      intro d hd
      rcases List.mem_cons.mp hd with h | h
      · omega
      · exact ih ((n + 1) / 10) (Nat.div_lt_self (Nat.succ_pos n) (by norm_num)) d h

theorem natDigitsRev_ne_nil (n : ℕ) (h : n ≠ 0) : natDigitsRev n ≠ [] := by
  match n with
  | 0 => exact absurd rfl h
  | n + 1 => rw [natDigitsRev]; exact List.cons_ne_nil _ _

theorem parseNatDigits_eq (l : List Char) (h : l ≠ []) : parseNatDigits l = parseNatAux 0 l := by
  cases l with
  | nil => exact absurd rfl h
  | cons c cs => rfl

theorem parseNatDigits_natToDigits (n : ℕ) : parseNatDigits (natToDigits n) = some n := by
  by_cases h : n = 0
  · subst h; decide
  · unfold natToDigits
    rw [if_neg h]
    have hrev : (natDigitsRev n).reverse ≠ [] := by
      simpa using natDigitsRev_ne_nil n h
    have hmap : ((natDigitsRev n).reverse).map digitChar ≠ [] := by
      simpa using hrev
    rw [parseNatDigits_eq _ hmap,
      parseNatAux_map_digitChar _ (fun d hd => natDigitsRev_lt n d (List.mem_reverse.mp hd)) 0,
      foldl_reverse_digits, digitsVal_natDigitsRev]
    simp

theorem natToDigits_chars (n : ℕ) : ∀ c ∈ natToDigits n, c ≠ '.' ∧ c ≠ '-' := by
  intro c hc
  unfold natToDigits at hc
  by_cases h : n = 0
  · rw [if_pos h] at hc
    simp at hc
    subst hc; decide
  · rw [if_neg h] at hc
    obtain ⟨d, hd, rfl⟩ := List.mem_map.mp hc
    exact digitChar_ne d (natDigitsRev_lt n d (List.mem_reverse.mp hd))

theorem natToDigits_ne_nil (n : ℕ) : natToDigits n ≠ [] := by
  unfold natToDigits
  by_cases h : n = 0
  · rw [if_pos h]; exact List.cons_ne_nil _ _
  · rw [if_neg h]
    simpa using natDigitsRev_ne_nil n h

/-! ## Splitting and fractional digits -/

theorem splitAtDot_no_dot (l : List Char) (h : ∀ c ∈ l, c ≠ '.') :
    splitAtDot l = (l, none) := by
  induction l with
  | nil => rfl
  | cons c cs ih =>
    have hc : c ≠ '.' := h c (List.mem_cons_self c cs)
    simp only [splitAtDot, if_neg hc, ih (fun x hx => h x (List.mem_cons_of_mem _ hx))]

theorem splitAtDot_append (l1 l2 : List Char) (h : ∀ c ∈ l1, c ≠ '.') :
    splitAtDot (l1 ++ '.' :: l2) = (l1, some l2) := by
  induction l1 with
  | nil => simp [splitAtDot]
  | cons c cs ih =>
    have hc : c ≠ '.' := h c (List.mem_cons_self c cs)
    simp only [List.cons_append, splitAtDot, if_neg hc, List.append_eq,
      ih (fun x hx => h x (List.mem_cons_of_mem _ hx))]

theorem natDigitsRevPad_lt (k : ℕ) : ∀ r : ℕ, ∀ d ∈ natDigitsRevPad k r, d < 10 := by
  induction k with
  | zero => intro r d hd; simp [natDigitsRevPad] at hd
  | succ k ih =>
    intro r d hd
    rw [natDigitsRevPad] at hd
    rcases List.mem_cons.mp hd with h | h
    · omega
    · exact ih (r / 10) d h

theorem length_natDigitsRevPad (k : ℕ) : ∀ r : ℕ, (natDigitsRevPad k r).length = k := by
  induction k with
  | zero => intro r; rfl
  | succ k ih => intro r; rw [natDigitsRevPad]; simp [ih]

theorem digitsVal_natDigitsRevPad (k : ℕ) :
    ∀ r : ℕ, r < 10 ^ k → digitsVal (natDigitsRevPad k r) = r := by
  induction k with
  | zero =>
    intro r hr
    interval_cases r
    rfl
  | succ k ih =>
    intro r hr
    rw [natDigitsRevPad]
    simp only [digitsVal, List.foldr_cons]
    have hdiv : r / 10 < 10 ^ k := by
      rw [Nat.div_lt_iff_lt_mul (by norm_num : 0 < 10)]
      calc r < 10 ^ (k + 1) := hr
        _ = 10 ^ k * 10 := by ring
    have : List.foldr (fun d acc => d + 10 * acc) 0 (natDigitsRevPad k (r / 10)) = r / 10 :=
      ih (r / 10) hdiv
    rw [this]
    omega

theorem length_fracToDigits (k r : ℕ) : (fracToDigits k r).length = k := by
  simp [fracToDigits, length_natDigitsRevPad]

theorem fracToDigits_ne_nil (k r : ℕ) (hk : 0 < k) : fracToDigits k r ≠ [] := by
  intro h
  have := length_fracToDigits k r
  rw [h] at this
  simp at this
  omega

theorem fracToDigits_chars (k r : ℕ) : ∀ c ∈ fracToDigits k r, c ≠ '.' ∧ c ≠ '-' := by
  intro c hc
  obtain ⟨d, hd, rfl⟩ := List.mem_map.mp hc
  exact digitChar_ne d (natDigitsRevPad_lt k r d (List.mem_reverse.mp hd))

theorem parseNatDigits_fracToDigits (k r : ℕ) (hk : 0 < k) (hr : r < 10 ^ k) :
    parseNatDigits (fracToDigits k r) = some r := by
  rw [parseNatDigits_eq _ (fracToDigits_ne_nil k r hk), fracToDigits,
    parseNatAux_map_digitChar _ (fun d hd => natDigitsRevPad_lt k r d (List.mem_reverse.mp hd)) 0,
    foldl_reverse_digits, digitsVal_natDigitsRevPad k r hr]
  simp

/-! ## Decimal print/parse round trip -/

theorem parseUnsigned_natToDigits (m : ℕ) : parseUnsigned (natToDigits m) = some (m : ℚ) := by
  unfold parseUnsigned
  rw [splitAtDot_no_dot _ (fun c hc => (natToDigits_chars m c hc).1)]
  simp [parseNatDigits_natToDigits]

theorem parseUnsigned_printBody (k m : ℕ) :
    parseUnsigned (printBody k m) = some ((m : ℚ) / 10 ^ k) := by
  by_cases hk : k = 0
  · subst hk
    rw [printBody, if_pos rfl, parseUnsigned_natToDigits]
    norm_num
  · have hkpos : 0 < k := Nat.pos_of_ne_zero hk
    rw [printBody, if_neg hk]
    unfold parseUnsigned
    rw [splitAtDot_append _ _ (fun c hc => (natToDigits_chars _ c hc).1)]
    have hmod : m % 10 ^ k < 10 ^ k := Nat.mod_lt _ (by positivity)
    simp only [parseNatDigits_natToDigits, parseNatDigits_fracToDigits k _ hkpos hmod,
      length_fracToDigits]
    congr 1
    have h10 : ((10 : ℚ)) ^ k ≠ 0 := by positivity
    have key : (m / 10 ^ k) * 10 ^ k + m % 10 ^ k = m := by
      rw [mul_comm]
      exact Nat.div_add_mod m (10 ^ k)
    rw [eq_div_iff h10, add_mul, div_mul_cancel₀ _ h10]
    exact_mod_cast key

theorem printBody_ne_nil (k m : ℕ) : printBody k m ≠ [] := by
  unfold printBody
  by_cases hk : k = 0
  · rw [if_pos hk]; exact natToDigits_ne_nil m
  · rw [if_neg hk]
    simp [natToDigits_ne_nil]

theorem printBody_chars (k m : ℕ) : ∀ c ∈ printBody k m, c ≠ '-' := by
  intro c hc
  unfold printBody at hc
  by_cases hk : k = 0
  · rw [if_pos hk] at hc
    exact (natToDigits_chars m c hc).2
  · rw [if_neg hk] at hc
    rcases List.mem_append.mp hc with h | h
    · exact (natToDigits_chars _ c h).2
    · rcases List.mem_cons.mp h with h' | h'
      · subst h'; decide
      · exact (fracToDigits_chars _ _ c h').2

theorem parseDecimalChars_no_dash (l : List Char) (hne : l ≠ []) (h : ∀ c ∈ l, c ≠ '-') :
    parseDecimalChars l = parseUnsigned l := by
  cases l with
  | nil => exact absurd rfl hne
  | cons c cs =>
    simp [parseDecimalChars, h c (List.mem_cons_self c cs)]

theorem parseDecimalChars_printFixed (k : ℕ) (q : ℚ) (h : (q * (10 : ℚ) ^ k).den = 1) :
    parseDecimalChars (printFixed k q) = some q := by
  have h10 : ((10 : ℚ)) ^ k ≠ 0 := by positivity
  have hnum : (((q * (10 : ℚ) ^ k).num : ℤ) : ℚ) = q * (10 : ℚ) ^ k :=
    (Rat.den_eq_one_iff _).mp h
  have hq : q = (((q * (10 : ℚ) ^ k).num : ℤ) : ℚ) / (10 : ℚ) ^ k := by
    rw [hnum, mul_div_cancel_right₀ _ h10]
  unfold printFixed
  by_cases hneg : (q * (10 : ℚ) ^ k).num < 0
  · rw [if_pos hneg]
    have hred : parseDecimalChars ('-' :: printBody k (q * (10 : ℚ) ^ k).num.natAbs) =
        Option.map (fun x => -x) (parseUnsigned (printBody k (q * (10 : ℚ) ^ k).num.natAbs)) := rfl
    rw [hred, parseUnsigned_printBody]
    rw [Option.map_some']
    congr 1
    rw [Int.cast_natAbs, abs_of_neg hneg]
    push_cast
    rw [neg_div, neg_neg, ← hq]
  · rw [if_neg hneg]
    rw [parseDecimalChars_no_dash _ (printBody_ne_nil _ _) (printBody_chars _ _),
      parseUnsigned_printBody]
    congr 1
    rw [Int.cast_natAbs, abs_of_nonneg (not_lt.mp hneg), ← hq]

/-! ## CSV record round trip -/

theorem parseRecord_recordOfRow (k : ℕ) (r : Row)
    (ht : (r.averageTemperature * (10 : ℚ) ^ k).den = 1)
    (hla : (r.latitude * (10 : ℚ) ^ k).den = 1)
    (hlo : (r.longitude * (10 : ℚ) ^ k).den = 1) :
    parseRecord (recordOfRow k r) = some (toImported r) := by
  have h1 : parseDecimal (String.mk (printFixed k r.averageTemperature)) = some r.averageTemperature :=
    parseDecimalChars_printFixed k _ ht
  have h2 : parseDecimal (String.mk (printFixed k r.latitude)) = some r.latitude :=
    parseDecimalChars_printFixed k _ hla
  have h3 : parseDecimal (String.mk (printFixed k r.longitude)) = some r.longitude :=
    parseDecimalChars_printFixed k _ hlo
  have h4 : parseNatDigits (natToString r.year).data = some r.year :=
    parseNatDigits_natToDigits r.year
  have h5 : parseNatDigits (natToString r.month).data = some r.month :=
    parseNatDigits_natToDigits r.month
  simp [recordOfRow, parseRecord, h1, h2, h3, h4, h5, toImported]

theorem parseRecords_map (k : ℕ) (df : List Row)
    (h : ∀ r ∈ df, (r.averageTemperature * (10 : ℚ) ^ k).den = 1 ∧
      (r.latitude * (10 : ℚ) ^ k).den = 1 ∧ (r.longitude * (10 : ℚ) ^ k).den = 1) :
    parseRecords (df.map (recordOfRow k)) = some (df.map toImported) := by
  induction df with
  | nil => rfl
  | cons r rs ih =>
    obtain ⟨h1, h2, h3⟩ := h r (List.mem_cons_self r rs)
    simp only [List.map_cons, parseRecords, parseRecord_recordOfRow k r h1 h2 h3,
      ih (fun x hx => h x (List.mem_cons_of_mem _ hx))]

theorem zip_map_fst {α β : Type} (f : α → β) (l : List α) :
    ∀ p ∈ (l.map f).zip l, p.1 = f p.2 := by
  induction l with
  | nil => intro p hp; simp at hp
  | cons a l ih =>
    intro p hp
    simp only [List.map_cons, List.zip_cons_cons, List.mem_cons] at hp
    rcases hp with h | h
    · subst h; rfl
    · exact ih p h

/-! ## Loader lemmas -/

theorem parseDate_month (s : String) (d : Date) (h : parseDate s = some d) :
    1 ≤ d.month ∧ d.month ≤ 12 := by
  unfold parseDate at h
  split at h
  · split at h
    · split at h
      · obtain rfl := Option.some.inj h
        simp_all
      · exact absurd h (by simp)
    · exact absurd h (by simp)
  · exact absurd h (by simp)

theorem convertRow_some (raw : RawRow) (x : Row) (h : convertRow raw = some x) :
    raw.averageTemperature = some x.averageTemperature ∧
    x.year = x.dt.year ∧ x.month = x.dt.month ∧ 1 ≤ x.month ∧ x.month ≤ 12 := by
  unfold convertRow at h
  cases htemp : raw.averageTemperature with
  | none => rw [htemp] at h; exact absurd h (by simp)
  | some t =>
    rw [htemp] at h
    cases hdate : parseDate raw.dt with
    | none => rw [hdate] at h; exact absurd h (by simp)
    | some d =>
      rw [hdate] at h
      cases hla : parseCoord raw.latitude with
      | none => rw [hla] at h; exact absurd h (by simp)
      | some la =>
        rw [hla] at h
        cases hlo : parseCoord raw.longitude with
        | none => rw [hlo] at h; exact absurd h (by simp)
        | some lo =>
          rw [hlo] at h
          obtain rfl := Option.some.inj h
          obtain ⟨hm1, hm2⟩ := parseDate_month raw.dt d hdate
          exact ⟨rfl, rfl, rfl, hm1, hm2⟩

theorem convertRows_some (l : List RawRow) :
    ∀ out : List Row, convertRows l = some out →
      out.length = l.length ∧ ∀ x ∈ out, ∃ raw ∈ l, convertRow raw = some x := by
  induction l with
  | nil =>
    intro out h
    obtain rfl := Option.some.inj h
    exact ⟨rfl, by intro x hx; simp at hx⟩
  | cons r rs ih =>
    intro out h
    unfold convertRows at h
    cases hcr : convertRow r with
    | none => rw [hcr] at h; exact absurd h (by simp)
    | some x =>
      rw [hcr] at h
      cases hcrs : convertRows rs with
      | none => rw [hcrs] at h; exact absurd h (by simp)
      | some xs =>
        rw [hcrs] at h
        obtain rfl := Option.some.inj h
        obtain ⟨hlen, hmem⟩ := ih xs hcrs
        refine ⟨by simp [hlen], ?_⟩
        intro y hy
        rcases List.mem_cons.mp hy with rfl | hy'
        · exact ⟨r, List.mem_cons_self r rs, hcr⟩
        · obtain ⟨raw, hraw, hconv⟩ := hmem y hy'
          exact ⟨raw, List.mem_cons_of_mem _ hraw, hconv⟩

/-! ## Aggregation helpers -/

theorem sortedKeys_sorted {α : Type} [LinearOrder α] [DecidableEq α] (l : List α) :
    ((l.dedup).insertionSort (fun a b => a ≤ b)).Sorted (fun a b => a < b) := by
  apply List.Sorted.lt_of_le
  · exact List.sorted_insertionSort _ _
  · exact ((List.perm_insertionSort _ _).nodup_iff).mpr (List.nodup_dedup l)

theorem mem_sortedKeys {α : Type} [LinearOrder α] [DecidableEq α] (l : List α) (y : α) :
    y ∈ (l.dedup).insertionSort (fun a b => a ≤ b) ↔ y ∈ l := by
  rw [(List.perm_insertionSort _ _).mem_iff, List.mem_dedup]

theorem foldl_min_le_init (l : List ℚ) : ∀ acc : ℚ, l.foldl min acc ≤ acc := by
  induction l with
  | nil => intro acc; exact le_refl acc
  | cons u l ih =>
    intro acc
    calc (u :: l).foldl min acc = l.foldl min (min acc u) := rfl
      _ ≤ min acc u := ih (min acc u)
      _ ≤ acc := min_le_left acc u

theorem foldl_min_le_mem (l : List ℚ) : ∀ acc : ℚ, ∀ x ∈ l, l.foldl min acc ≤ x := by
  induction l with
  | nil => intro acc x hx; simp at hx
  | cons u l ih =>
    intro acc x hx
    rcases List.mem_cons.mp hx with rfl | hx'
    · calc (x :: l).foldl min acc = l.foldl min (min acc x) := rfl
        _ ≤ min acc x := foldl_min_le_init l (min acc x)
        _ ≤ x := min_le_right acc x
    · exact ih (min acc u) x hx'

theorem init_le_foldl_max (l : List ℚ) : ∀ acc : ℚ, acc ≤ l.foldl max acc := by
  induction l with
  | nil => intro acc; exact le_refl acc
  | cons u l ih =>
    intro acc
    calc acc ≤ max acc u := le_max_left acc u
      _ ≤ l.foldl max (max acc u) := ih (max acc u)
      _ = (u :: l).foldl max acc := rfl

theorem mem_le_foldl_max (l : List ℚ) : ∀ acc : ℚ, ∀ x ∈ l, x ≤ l.foldl max acc := by
  induction l with
  | nil => intro acc x hx; simp at hx
  | cons u l ih =>
    intro acc x hx
    rcases List.mem_cons.mp hx with rfl | hx'
    · calc x ≤ max acc x := le_max_right acc x
        _ ≤ l.foldl max (max acc x) := init_le_foldl_max l (max acc x)
        _ = (x :: l).foldl max acc := rfl
    · exact ih (max acc u) x hx'

theorem listMin_le (t : ℚ) (ts : List ℚ) : ∀ x ∈ t :: ts, listMin t ts ≤ x := by
  intro x hx
  rcases List.mem_cons.mp hx with rfl | hx'
  · exact foldl_min_le_init ts x
  · exact foldl_min_le_mem ts t x hx'

theorem le_listMax (t : ℚ) (ts : List ℚ) : ∀ x ∈ t :: ts, x ≤ listMax t ts := by
  intro x hx
  rcases List.mem_cons.mp hx with rfl | hx'
  · exact init_le_foldl_max ts x
  · exact mem_le_foldl_max ts t x hx'

/-! ## Shared concrete evaluations -/

theorem load_sampleRaws : load_and_preprocess_data sampleRaws = some sampleCleaned := by
  have h1 : "2000-05-15".data = ['2','0','0','0','-','0','5','-','1','5'] := rfl
  have h3 : "2002-07-15".data = ['2','0','0','2','-','0','7','-','1','5'] := rfl
  have hla : "34.5N".data = ['3','4','.','5','N'] := rfl
  have hlo : "12.3W".data = ['1','2','.','3','W'] := rfl
  simp [load_and_preprocess_data, sampleRaws, sampleCleaned, convertRows, convertRow,
    parseDate, splitDashes, parseCoord, parseDecimalChars, parseUnsigned, splitAtDot,
    parseNatDigits, parseNatAux, digitVal?, h1, h3, hla, hlo]
  norm_num

/-! ## Claims -/

/-- C1: loading a table in which exactly one row out of N has a missing
`AverageTemperature` produces a cleaned table of exactly N−1 rows; more
generally, every row with a missing `AverageTemperature` is removed
during load (the cleaned table has exactly one row per raw row whose
temperature is present), and in the resulting cleaned table every
`average_temperature` stems from a present raw value — none is
missing. -/
theorem c1_dropna (raws : List RawRow) (cleaned : List Row)
    (h : load_and_preprocess_data raws = some cleaned) :
    cleaned.length = (raws.filter (fun r => r.averageTemperature.isSome)).length
    ∧ (raws.countP (fun r => !r.averageTemperature.isSome) = 1 →
        cleaned.length = raws.length - 1)
    ∧ ∀ x ∈ cleaned, ∃ raw ∈ raws, raw.averageTemperature = some x.averageTemperature := by
  obtain ⟨hlen, hmem⟩ := convertRows_some (raws.filter (fun r => r.averageTemperature.isSome)) cleaned h
  refine ⟨hlen, ?_, ?_⟩
  · intro hcount
    have htotal := List.length_eq_countP_add_countP (fun r => r.averageTemperature.isSome) raws
    have hfilter : raws.countP (fun r => r.averageTemperature.isSome) =
        (raws.filter (fun r => r.averageTemperature.isSome)).length :=
      List.countP_eq_length_filter _ _
    have hneg : raws.countP (fun a => decide ¬(a.averageTemperature.isSome = true)) =
        raws.countP (fun r => !r.averageTemperature.isSome) := by
      apply List.countP_congr
      intro a _
      simp
    omega
  · intro x hx
    obtain ⟨raw, hraw, hconv⟩ := hmem x hx
    exact ⟨raw, List.mem_of_mem_filter hraw, (convertRow_some raw x hconv).1⟩

/-- Witness for C1 on `sampleRaws` (3 raw rows, exactly 1 missing
temperature): the cleaned table has 3 − 1 = 2 rows. -/
theorem c1_dropna_witness : sampleCleaned.length = sampleRaws.length - 1 :=
  (c1_dropna sampleRaws sampleCleaned load_sampleRaws).2.1 (by decide)

/-- C2: in every cleaned table the derived `Year` equals the calendar
year of the parsed `dt`, the derived `Month` equals its calendar
month, and the month lies in [1, 12]. -/
theorem c2_year_month (raws : List RawRow) (cleaned : List Row)
    (h : load_and_preprocess_data raws = some cleaned) :
    ∀ x ∈ cleaned, x.year = x.dt.year ∧ x.month = x.dt.month ∧ 1 ≤ x.month ∧ x.month ≤ 12 := by
  intro x hx
  obtain ⟨_, hmem⟩ := convertRows_some (raws.filter (fun r => r.averageTemperature.isSome)) cleaned h
  obtain ⟨raw, _, hconv⟩ := hmem x hx
  exact (convertRow_some raw x hconv).2

/-- Witness for C2 at the first row of the cleaned sample table. -/
theorem c2_year_month_witness :
    (Row.mk ⟨2000, 5, 15⟩ 10 (69 / 2) (123 / 10) "A" "X" 2000 5).year =
      (Row.mk ⟨2000, 5, 15⟩ 10 (69 / 2) (123 / 10) "A" "X" 2000 5).dt.year
    ∧ (Row.mk ⟨2000, 5, 15⟩ 10 (69 / 2) (123 / 10) "A" "X" 2000 5).month =
      (Row.mk ⟨2000, 5, 15⟩ 10 (69 / 2) (123 / 10) "A" "X" 2000 5).dt.month
    ∧ 1 ≤ (Row.mk ⟨2000, 5, 15⟩ 10 (69 / 2) (123 / 10) "A" "X" 2000 5).month
    ∧ (Row.mk ⟨2000, 5, 15⟩ 10 (69 / 2) (123 / 10) "A" "X" 2000 5).month ≤ 12 :=
  c2_year_month sampleRaws sampleCleaned load_sampleRaws _ (by simp [sampleCleaned])

/-- C3: the coordinate conversion strips exactly the final character
and parses the remainder, never flipping the sign: `"34.5N"` parses to
34.5, `"12.3W"` to +12.3 (not −12.3), and `"12.3W"`/`"12.3E"` parse
identically — in fact `s ++ "W"` and `s ++ "E"` parse identically for
every string `s`. -/
theorem c3_coordinate_parsing :
    parseCoord "34.5N" = some (69 / 2)
    ∧ parseCoord "12.3W" = some (123 / 10)
    ∧ parseCoord "12.3E" = some (123 / 10)
    ∧ ∀ s : String, parseCoord (s ++ "W") = parseCoord (s ++ "E") := by
  refine ⟨?_, ?_, ?_, ?_⟩
  · have hd : "34.5N".data = ['3', '4', '.', '5', 'N'] := rfl
    simp [parseCoord, hd, parseDecimalChars, parseUnsigned, splitAtDot, parseNatDigits,
      parseNatAux, digitVal?]
    norm_num
  · have hd : "12.3W".data = ['1', '2', '.', '3', 'W'] := rfl
    simp [parseCoord, hd, parseDecimalChars, parseUnsigned, splitAtDot, parseNatDigits,
      parseNatAux, digitVal?]
    norm_num
  · have hd : "12.3E".data = ['1', '2', '.', '3', 'E'] := rfl
    simp [parseCoord, hd, parseDecimalChars, parseUnsigned, splitAtDot, parseNatDigits,
      parseNatAux, digitVal?]
    norm_num
  · intro s
    unfold parseCoord
    rw [String.data_append, String.data_append]
    have hW : "W".data = ['W'] := rfl
    have hE : "E".data = ['E'] := rfl
    rw [hW, hE, List.dropLast_concat, List.dropLast_concat]

/-- C4: given an inclusive year range [lo, hi] with lo ≤ hi inside the
observed year span and an optional country, the filter returns exactly
the subsequence of rows with lo ≤ year ≤ hi and, when the country is
not the `"All"` sentinel, with that country; with `"All"` no country
restriction applies; and when nothing matches the result is the empty
table, not an error. -/
theorem c4_filter (df : List Row) (lo hi : ℕ) (country : String)
    (h1 : lo ≤ hi)
    (h2 : ∃ r ∈ df, r.year ≤ lo)
    (h3 : ∃ r ∈ df, hi ≤ r.year) :
    filter_data df lo hi country =
      df.filter (fun r => decide (lo ≤ r.year) && decide (r.year ≤ hi) &&
        (decide (country = "All") || decide (r.country = country)))
    ∧ ((∀ r ∈ df, ¬(lo ≤ r.year ∧ r.year ≤ hi ∧ (country = "All" ∨ r.country = country))) →
        filter_data df lo hi country = []) := by
  have hmain : filter_data df lo hi country =
      df.filter (fun r => decide (lo ≤ r.year) && decide (r.year ≤ hi) &&
        (decide (country = "All") || decide (r.country = country))) := by
    unfold filter_data
    by_cases hc : country = "All"
    · subst hc
      rw [if_pos rfl]
      apply List.filter_congr
      intro r hr
      simp
    · rw [if_neg hc, List.filter_filter]
      apply List.filter_congr
      intro r hr
      simp [hc, Bool.and_comm]
  refine ⟨hmain, fun hnone => ?_⟩
  rw [hmain, List.filter_eq_nil_iff]
  intro r hr
  have hr' := hnone r hr
  simp only [Bool.and_eq_true, Bool.or_eq_true, decide_eq_true_eq]
  tauto

/-- Witness for C4: filtering `[lo, hi] = [2000, 2000]`, country
`"All"`, on a table containing only years 1999 and 2000 returns
exactly the year-2000 rows. -/
theorem c4_filter_witness :
    filter_data dfYears 2000 2000 "All" = [mkRow 2000 5 "B" "X" 20] := by
  have h := (c4_filter dfYears 2000 2000 "All" (le_refl 2000)
    ⟨mkRow 1999 5 "A" "X" 10, by simp [dfYears], by decide⟩
    ⟨mkRow 2000 5 "B" "X" 20, by simp [dfYears], by decide⟩).1
  rw [h]
  simp [dfYears, mkRow]

/-- C10: the filter does not check lo ≤ hi: for an inverted range
(lo > hi) it returns the empty table rather than raising. (In this
embedding filtering is a pure function of the cleaned table, which is
therefore never mutated by it.) -/
theorem c10_inverted_range (df : List Row) (lo hi : ℕ) (country : String) (h : hi < lo) :
    filter_data df lo hi country = [] := by
  have hy : df.filter (fun r => decide (lo ≤ r.year) && decide (r.year ≤ hi)) = [] := by
    rw [List.filter_eq_nil_iff]
    intro r hr
    simp only [Bool.and_eq_true, decide_eq_true_eq, not_and]
    omega
  unfold filter_data
  rw [hy]
  by_cases hc : country = "All"
  · rw [if_pos hc]
  · rw [if_neg hc]; rfl

/-- Witness for C10: the inverted range [2001, 2000] on the 1999/2000
table yields the empty table. -/
theorem c10_inverted_range_witness : filter_data dfYears 2001 2000 "All" = [] :=
  c10_inverted_range dfYears 2001 2000 "All" (by decide)

/-- C5: the yearly trend is the sequence of (year, mean temperature)
pairs, mean taken over all rows of that year, sorted strictly
ascending by year; exactly the years present in the table appear; two
rows of year 2000 with temperatures 10 and 20 yield [(2000, 15)]. -/
theorem c5_yearly_trend (df : List Row) :
    ((yearly_avg_temp df).map Prod.fst).Sorted (fun a b => a < b)
    ∧ (∀ y : ℕ, y ∈ (yearly_avg_temp df).map Prod.fst ↔ y ∈ df.map (fun r => r.year))
    ∧ (∀ p ∈ yearly_avg_temp df,
        p.2 = ((df.filter (fun r => decide (r.year = p.1))).map (fun r => r.averageTemperature)).sum /
          ((df.filter (fun r => decide (r.year = p.1))).length : ℚ))
    ∧ yearly_avg_temp yearlyExample = [(2000, 15)] := by
  have hfst : (yearly_avg_temp df).map Prod.fst =
      ((df.map (fun r => r.year)).dedup).insertionSort (fun a b => a ≤ b) := by
    unfold yearly_avg_temp
    rw [List.map_map]
    have hcomp : (Prod.fst ∘ fun y : ℕ => (y, yearMean df y)) = id := rfl
    rw [hcomp, List.map_id]
  refine ⟨?_, ?_, ?_, ?_⟩
  · rw [hfst]
    exact sortedKeys_sorted _
  · intro y
    rw [hfst]
    exact mem_sortedKeys _ y
  · intro p hp
    unfold yearly_avg_temp at hp
    obtain ⟨y, hy, rfl⟩ := List.mem_map.mp hp
    rfl
  · simp [yearly_avg_temp, yearlyExample, mkRow, List.dedup, List.insertionSort,
      List.orderedInsert, yearMean, rowsOfYear]
    norm_num

/-- C6: the top-hottest-cities series is sorted descending by mean
temperature with ties broken by ascending city name (`hotterRel`),
hence pairwise non-increasing means; its length is
min 10 (number of distinct cities); cities A (mean 30), B (25), C (30)
yield A, C, B in that order. -/
theorem c6_top_hottest_cities (df : List Row) :
    (city_avg_temp df).Sorted hotterRel
    ∧ (city_avg_temp df).Pairwise (fun a b => b.2 ≤ a.2)
    ∧ (city_avg_temp df).length = min 10 ((df.map (fun r => r.city)).dedup.length)
    ∧ city_avg_temp cityExample = [("A", 30), ("C", 30), ("B", 25)] := by
  have hsorted : ((cityMeans df).insertionSort hotterRel).Sorted hotterRel :=
    List.sorted_insertionSort hotterRel _
  have htake : (city_avg_temp df).Sorted hotterRel :=
    List.Pairwise.sublist (List.take_sublist _ _) hsorted
  refine ⟨htake, ?_, ?_, ?_⟩
  · refine htake.imp ?_
    intro a b hab
    rcases hab with h | ⟨h, _⟩
    · exact le_of_lt h
    · exact le_of_eq h.symm
  · unfold city_avg_temp cityMeans
    rw [List.length_take, List.length_insertionSort, List.length_map,
      List.length_insertionSort]
  · have hac : (['A'] : List Char) ≤ ['C'] := by decide
    simp [city_avg_temp, cityMeans, cityExample, mkRow, List.dedup, List.insertionSort,
      List.orderedInsert, cityMean, rowsOfCity, hotterRel, hac]

/-- C7: the monthly trend is the sequence of (month, mean temperature)
pairs sorted strictly ascending by month, with exactly the months
present in the table appearing; on the empty table it is the empty
sequence, not an error. -/
theorem c7_monthly_trend (df : List Row) :
    ((monthly_avg_temp df).map Prod.fst).Sorted (fun a b => a < b)
    ∧ (∀ m : ℕ, m ∈ (monthly_avg_temp df).map Prod.fst ↔ m ∈ df.map (fun r => r.month))
    ∧ (∀ p ∈ monthly_avg_temp df,
        p.2 = ((df.filter (fun r => decide (r.month = p.1))).map (fun r => r.averageTemperature)).sum /
          ((df.filter (fun r => decide (r.month = p.1))).length : ℚ))
    ∧ monthly_avg_temp [] = [] := by
  have hfst : (monthly_avg_temp df).map Prod.fst =
      ((df.map (fun r => r.month)).dedup).insertionSort (fun a b => a ≤ b) := by
    unfold monthly_avg_temp
    rw [List.map_map]
    have hcomp : (Prod.fst ∘ fun m : ℕ => (m, monthMean df m)) = id := rfl
    rw [hcomp, List.map_id]
  refine ⟨?_, ?_, ?_, rfl⟩
  · rw [hfst]
    exact sortedKeys_sorted _
  · intro m
    rw [hfst]
    exact mem_sortedKeys _ m
  · intro p hp
    unfold monthly_avg_temp at hp
    obtain ⟨m, hm, rfl⟩ := List.mem_map.mp hp
    rfl

/-- C8: exporting a filtered table to CSV (header plus one record per
row, cleaned-table column set with derived Year/Month) and re-loading
it without re-cleaning succeeds and reproduces the table: the same
row count and the same `average_temperature`, `year` and `month` in
every position. Floats are printed with `k` fractional digits, exact
under the finite-decimal hypotheses (every float64 value has a finite
decimal expansion). -/
theorem c8_csv_roundtrip (k : ℕ) (df : List Row)
    (h : ∀ r ∈ df, (r.averageTemperature * (10 : ℚ) ^ k).den = 1 ∧
      (r.latitude * (10 : ℚ) ^ k).den = 1 ∧ (r.longitude * (10 : ℚ) ^ k).den = 1) :
    csvImport (csvExport k df) = some (df.map toImported)
    ∧ (df.map toImported).length = df.length
    ∧ ∀ p ∈ (df.map toImported).zip df,
        p.1.averageTemperature = p.2.averageTemperature
        ∧ p.1.year = p.2.year ∧ p.1.month = p.2.month := by
  refine ⟨?_, List.length_map df toImported, ?_⟩
  · have hred : csvImport (csvExport k df) =
        if csvHeader = csvHeader then parseRecords (df.map (recordOfRow k)) else none := rfl
    rw [hred, if_pos rfl]
    exact parseRecords_map k df h
  · intro p hp
    rw [zip_map_fst toImported df p hp]
    exact ⟨rfl, rfl, rfl⟩

/-- Witness for C8: the one-row table exports and re-imports exactly,
with one fractional digit. -/
theorem c8_csv_roundtrip_witness :
    csvImport (csvExport 1 roundTripExample) = some (roundTripExample.map toImported) :=
  (c8_csv_roundtrip 1 roundTripExample (by
    intro r hr
    simp only [roundTripExample, List.mem_cons, List.not_mem_nil, or_false] at hr
    subst hr
    refine ⟨?_, ?_, ?_⟩ <;> norm_num [mkRow])).1

/-- C9: the temperature distribution partitions [min, max] of the
filtered data into 50 equal-width buckets and counts rows per bucket;
an empty table or a degenerate range min = max yields a single bucket
holding every (possibly zero) row instead of a division by zero.
(The binning itself happens inside `sns.histplot`, outside this
repository's source; `temperature_distribution` is modelled from the
spec, §4.4.) -/
theorem c9_temperature_distribution (df : List Row) :
    (tempsOf df = [] → temperature_distribution df = [((0, 0), 0)] ∧ df.length = 0)
    ∧ (∀ t ts, tempsOf df = t :: ts → listMin t ts = listMax t ts →
        temperature_distribution df = [((listMin t ts, listMax t ts), df.length)])
    ∧ (∀ t ts, tempsOf df = t :: ts → listMin t ts ≠ listMax t ts →
        (temperature_distribution df).length = 50
        ∧ ∀ i : ℕ, i < 50 →
            (temperature_distribution df)[i]? =
              some ((listMin t ts + (i : ℚ) * ((listMax t ts - listMin t ts) / 50),
                     listMin t ts + ((i : ℚ) + 1) * ((listMax t ts - listMin t ts) / 50)),
                df.countP (fun r =>
                  decide (listMin t ts + (i : ℚ) * ((listMax t ts - listMin t ts) / 50) ≤ r.averageTemperature ∧
                    (if i = 49 then
                      r.averageTemperature ≤ listMin t ts + ((i : ℚ) + 1) * ((listMax t ts - listMin t ts) / 50)
                     else
                      r.averageTemperature < listMin t ts + ((i : ℚ) + 1) * ((listMax t ts - listMin t ts) / 50)))))) := by
  refine ⟨?_, ?_, ?_⟩
  · intro h
    have hdf : df = [] := by
      unfold tempsOf at h
      exact List.map_eq_nil_iff.mp h
    subst hdf
    exact ⟨rfl, rfl⟩
  · intro t ts hcons heq
    have hall : ∀ r ∈ df, decide (listMin t ts ≤ r.averageTemperature ∧
        r.averageTemperature ≤ listMax t ts) = true := by
      intro r hr
      have hmem : r.averageTemperature ∈ t :: ts := by
        rw [← hcons]
        exact List.mem_map_of_mem (fun r => r.averageTemperature) hr
      simp only [decide_eq_true_eq]
      exact ⟨listMin_le t ts _ hmem, le_listMax t ts _ hmem⟩
    unfold temperature_distribution
    simp only [hcons]
    rw [if_pos heq, List.countP_eq_length.mpr hall]
  · intro t ts hcons hne
    unfold temperature_distribution
    simp only [hcons]
    rw [if_neg hne]
    refine ⟨by rw [List.length_map, List.length_range], ?_⟩
    intro i hi
    rw [List.getElem?_map, List.getElem?_range hi]
    rfl

/-- Witness for C9: the empty table and a constant one-row table each
yield a single all-containing bucket; a spread table yields 50
buckets. -/
theorem c9_temperature_distribution_witness :
    temperature_distribution ([] : List Row) = [((0, 0), 0)]
    ∧ temperature_distribution constExample = [((5, 5), 1)]
    ∧ (temperature_distribution spreadExample).length = 50 := by
  refine ⟨((c9_temperature_distribution ([] : List Row)).1 rfl).1, ?_, ?_⟩
  · exact (c9_temperature_distribution constExample).2.1 5 [] rfl rfl
  · exact ((c9_temperature_distribution spreadExample).2.2 0 [50] rfl (by decide)).1

/-- Witness for C3 at a concrete string: `"12.3" ++ "W"` and
`"12.3" ++ "E"` parse identically. -/
theorem c3_coordinate_parsing_witness :
    parseCoord ("12.3" ++ "W") = parseCoord ("12.3" ++ "E") :=
  c3_coordinate_parsing.2.2.2 "12.3"

/-- Witness for C5 at the two-row year-2000 table. -/
theorem c5_yearly_trend_witness : yearly_avg_temp yearlyExample = [(2000, 15)] :=
  (c5_yearly_trend yearlyExample).2.2.2

/-- Witness for C6 at the A/B/C city table. -/
theorem c6_top_hottest_cities_witness :
    city_avg_temp cityExample = [("A", 30), ("C", 30), ("B", 25)] :=
  (c6_top_hottest_cities cityExample).2.2.2

/-- Witness for C7 at the empty filtered table. -/
theorem c7_monthly_trend_witness : monthly_avg_temp [] = [] :=
  (c7_monthly_trend []).2.2.2
